import Mathlib

/-!
A verification development for the mutual-exclusion lock in `src/sync/mutex.go`.

The mutex is a single 32-bit state word.  We embed the word as a natural
number below `2 ^ 32` (the two's-complement bit pattern of the Go `int32`),
so `atomic.AddInt32` becomes addition modulo `2 ^ 32`, `|` becomes `|||`,
`&` becomes `&&&`, `&^` becomes `&&&` with the complemented mask, and the
arithmetic right shift `>>` of a signed word becomes `sar32`.

Each atomic instruction of `Lock` / `Unlock` (the CASes, the atomic add, the
semaphore operations, and each atomic load of `m.state`) is one transition of
the relation `TStep` on a thread's view `(state, sema, pc)`; purely local
computation is folded into the adjacent transition.  `SysStep` interleaves
`n` threads, each running the client loop `Lock; critical section; Unlock`,
over the shared `state` word and semaphore counter.
-/

namespace GoMutex

/-- Bit-field constants from `src/sync/mutex.go` lines 34-38:
`mutexLocked = 1 << iota`, `mutexWoken`, `mutexWaiterShift = iota`. -/
def mutexLocked : Nat := 1

/-- The woken bit (bit 1) of the mutex state word. -/
def mutexWoken : Nat := 2

/-- Waiter count occupies the bits above `mutexWaiterShift = 2`. -/
def mutexWaiterShift : Nat := 2

/-- `2 ^ 32`, the modulus of the 32-bit state word. -/
def word : Nat := 2 ^ 32

/-- 32-bit wrapping addition (the effect of `atomic.AddInt32` on the bit
pattern; a negative Go summand `-k` is represented by `word - k`). -/
def add32 (x y : Nat) : Nat := (x + y) % word

/-- 32-bit wrapping subtraction on bit patterns (`y ≤ word`). -/
def sub32 (x y : Nat) : Nat := (x + (word - y)) % word

/-- Go's `x &^ y` (and-not) on 32-bit patterns: `(word - 1) - y` is the
32-bit complement of `y`. -/
def andNot32 (x y : Nat) : Nat := x &&& ((word - 1) - y)

/-- Arithmetic (sign-extending) right shift of a 32-bit two's-complement
pattern, the meaning of `old >> mutexWaiterShift` on Go's `int32`. -/
def sar32 (x k : Nat) : Nat :=
  if x < 2 ^ 31 then x >>> k else (x >>> k) ||| ((2 ^ k - 1) <<< (32 - k))

/-- The two fatal run-time errors of the source (mutex.go lines 80 and 117). -/
inductive PanicKind where
  | inconsistentMutexState
  | unlockOfUnlockedMutex
deriving DecidableEq

/-- Control points of one execution unit running `Lock; critical; Unlock`.
Each constructor carries exactly the local variables live at that point:
`awoke` and `iter` in Lock's retry loop (mutex.go lines 56-57), the loaded
`old` value (line 59), and the candidate `nw` (`new` in the source). -/
inductive PC where
  | idle
  | readOld (awoke : Bool) (iter : Nat)
  | afterRead (old : Nat) (awoke : Bool) (iter : Nat)
  | spinCAS (old : Nat) (iter : Nat)
  | casAttempt (old nw : Nat) (awoke : Bool) (iter : Nat)
  | blocked
  | critical
  | unlockLoop (old : Nat)
  | unlockRead
  | semrelease
  | panicked (k : PanicKind)
deriving DecidableEq

/-- The value of the local `new` at the `awoke` check of mutex.go line 76:
the loop body first sets `new := old | mutexLocked` (line 60) and, when the
lock is held and spinning was declined, overwrites it with
`new = old + 1<<mutexWaiterShift` (line 74). -/
def lockCandidate (old : Nat) : Nat :=
  if old &&& mutexLocked ≠ 0 then add32 old (1 <<< mutexWaiterShift)
  else old ||| mutexLocked

/-- The body of Lock's retry loop (mutex.go lines 59-84) after the atomic
load of `old`, up to but not including the CAS of line 85.  `canSpin` is the
answer of the external advisor `runtime_canSpin(iter)`.

If `old&mutexLocked != 0` then either spin (lines 62-73: when
`!awoke && old&mutexWoken == 0 && old>>mutexWaiterShift != 0` the woken-bit
CAS of line 67 is attempted at `PC.spinCAS`, otherwise
`runtime_doSpin(); iter++; continue`), or fall through with the candidate
`lockCandidate old`; the `awoke` check of lines 76-84 panics when
`new&mutexWoken == 0` and otherwise clears the woken bit with
`new &^= mutexWoken` before the CAS. -/
def lockBody (old : Nat) (awoke : Bool) (iter : Nat) (canSpin : Bool) : PC :=
  if old &&& mutexLocked ≠ 0 ∧ canSpin = true then
    if awoke = false ∧ old &&& mutexWoken = 0 ∧ sar32 old mutexWaiterShift ≠ 0 then
      PC.spinCAS old iter
    else
      PC.readOld awoke (iter + 1)
  else
    if awoke = true then
      if lockCandidate old &&& mutexWoken = 0 then
        PC.panicked PanicKind.inconsistentMutexState
      else PC.casAttempt old (andNot32 (lockCandidate old) mutexWoken) awoke iter
    else PC.casAttempt old (lockCandidate old) awoke iter

/-- Lock's fast path (mutex.go line 47): one CAS of `state` from `0` to
`mutexLocked`; `some` of the new state on success, `none` on failure. -/
def lockFastPath (s : Nat) : Option Nat :=
  if s = 0 then some mutexLocked else none

/-- Unlock's fast path (mutex.go lines 115-118): the atomic subtraction
`new := atomic.AddInt32(&m.state, -mutexLocked)` paired with the fatal-check
condition `(new+mutexLocked)&mutexLocked == 0`. -/
def unlockFast (s : Nat) : Nat × Bool :=
  (add32 s (word - mutexLocked),
   decide ((add32 (add32 s (word - mutexLocked)) mutexLocked) &&& mutexLocked = 0))

/-- The early-return condition of Unlock's wake loop (mutex.go line 124):
`old>>mutexWaiterShift == 0 || old&(mutexLocked|mutexWoken) != 0`. -/
def unlockRetGuard (old : Nat) : Prop :=
  sar32 old mutexWaiterShift = 0 ∨ old &&& (mutexLocked ||| mutexWoken) ≠ 0

instance (old : Nat) : Decidable (unlockRetGuard old) := by
  unfold unlockRetGuard; infer_instance

/-- The CAS target of Unlock's wake loop (mutex.go line 128):
`new = (old - 1<<mutexWaiterShift) | mutexWoken`. -/
def wakeNew (old : Nat) : Nat :=
  (sub32 old (1 <<< mutexWaiterShift)) ||| mutexWoken

/-- One atomic step of a single execution unit: a relation between
`(state, sema, pc)` before and after.  `state` is the shared word, `sema`
the credit counter of the external semaphore (`runtime_Semacquire` blocks
until a credit exists and consumes it; `runtime_Semrelease` adds one). -/
inductive TStep : Nat → Nat → PC → Nat → Nat → PC → Prop where
  /-- Line 47, fast-path CAS succeeds: state was `0`, becomes `mutexLocked`,
  and the unit holds the lock. -/
  | fastSucc (q : Nat) :
      TStep 0 q PC.idle mutexLocked q PC.critical
  /-- Line 47, fast-path CAS fails: state was not `0`; enter the slow path
  with `awoke := false`, `iter := 0` (lines 56-57). -/
  | fastFail (s q : Nat) (h : s ≠ 0) :
      TStep s q PC.idle s q (PC.readOld false 0)
  /-- Line 59: atomic load `old := m.state`. -/
  | readState (s q : Nat) (a : Bool) (i : Nat) :
      TStep s q (PC.readOld a i) s q (PC.afterRead s a i)
  /-- Lines 60-84: local computation of the loop body, with the spin
  advisor answering `cs`. -/
  | body (s q old : Nat) (a : Bool) (i : Nat) (cs : Bool) :
      TStep s q (PC.afterRead old a i) s q (lockBody old a i cs)
  /-- Line 67, woken-bit CAS succeeds: `awoke := true`, then
  `runtime_doSpin(); iter++` and the loop restarts (lines 70-72). -/
  | spinCASSucc (old q i : Nat) :
      TStep old q (PC.spinCAS old i) (old ||| mutexWoken) q (PC.readOld true (i + 1))
  /-- Line 67, woken-bit CAS fails (state moved); `awoke` stays `false`,
  still `runtime_doSpin(); iter++; continue`. -/
  | spinCASFail (s q old i : Nat) (h : s ≠ old) :
      TStep s q (PC.spinCAS old i) s q (PC.readOld false (i + 1))
  /-- Line 85, main CAS succeeds with `old&mutexLocked == 0`: the lock was
  free, the unit acquired it (lines 86-88). -/
  | casSuccFree (old q nw i : Nat) (a : Bool) (h : old &&& mutexLocked = 0) :
      TStep old q (PC.casAttempt old nw a i) nw q PC.critical
  /-- Line 85, main CAS succeeds with `old&mutexLocked != 0`: the unit
  registered as a waiter and blocks in `runtime_Semacquire` (line 91). -/
  | casSuccHeld (old q nw i : Nat) (a : Bool) (h : old &&& mutexLocked ≠ 0) :
      TStep old q (PC.casAttempt old nw a i) nw q PC.blocked
  /-- Line 85, main CAS fails: retry the loop with `awoke`, `iter` kept. -/
  | casFail (s q old nw i : Nat) (a : Bool) (h : s ≠ old) :
      TStep s q (PC.casAttempt old nw a i) s q (PC.readOld a i)
  /-- Line 91 returns: `runtime_Semacquire` consumes a semaphore credit;
  then `awoke = true; iter = 0` (lines 92-93) and the loop restarts. -/
  | semacquire (s q : Nat) :
      TStep s (q + 1) PC.blocked s q (PC.readOld true 0)
  /-- Lines 115-118, no panic: atomic add of `-mutexLocked`, the locked bit
  was set; continue into the wake loop with `old := new` (line 120). -/
  | unlockAddOk (s q : Nat) (h : (unlockFast s).2 = false) :
      TStep s q PC.critical (unlockFast s).1 q (PC.unlockLoop (unlockFast s).1)
  /-- Lines 115-118, panic: the locked bit was not set; the decrement has
  already happened when the fatal error fires. -/
  | unlockAddPanic (s q : Nat) (h : (unlockFast s).2 = true) :
      TStep s q PC.critical (unlockFast s).1 q (PC.panicked PanicKind.unlockOfUnlockedMutex)
  /-- Line 124: no waiters, or woken already set, or re-locked — return. -/
  | unlockRet (s q old : Nat) (h : unlockRetGuard old) :
      TStep s q (PC.unlockLoop old) s q PC.idle
  /-- Lines 128-129, wake CAS succeeds: claim the right to wake one waiter;
  `runtime_Semrelease` is the next step. -/
  | unlockCASSucc (old q : Nat) (h : ¬ unlockRetGuard old) :
      TStep old q (PC.unlockLoop old) (wakeNew old) q PC.semrelease
  /-- Line 129, wake CAS fails: re-read the state (line 134) next. -/
  | unlockCASFail (s q old : Nat) (h : ¬ unlockRetGuard old) (hne : s ≠ old) :
      TStep s q (PC.unlockLoop old) s q PC.unlockRead
  /-- Line 131: `runtime_Semrelease` adds one credit; Unlock returns. -/
  | semreleaseStep (s q : Nat) :
      TStep s q PC.semrelease s (q + 1) PC.idle
  /-- Line 134: atomic reload `old = m.state`, retry the wake loop. -/
  | unlockReread (s q : Nat) :
      TStep s q PC.unlockRead s q (PC.unlockLoop s)

/-- A system of `n` execution units sharing one Mutex: the state word, the
semaphore credit counter, and each unit's control point. -/
structure Sys (n : Nat) where
  st : Nat
  sema : Nat
  tds : Fin n → PC

/-- Interleaving semantics: one unit takes one atomic step. -/
inductive SysStep {n : Nat} : Sys n → Sys n → Prop where
  | mk (c : Sys n) (t : Fin n) (s' q' : Nat) (p' : PC)
      (h : TStep c.st c.sema (c.tds t) s' q' p') :
      SysStep c (Sys.mk s' q' (Function.update c.tds t p'))

/-- The all-zero initial system: a fresh zero Mutex, no semaphore credits,
every unit outside its critical section. -/
def initSys (n : Nat) : Sys n := Sys.mk 0 0 (fun _ => PC.idle)

/-- States reachable from the all-zero Mutex by concurrent Lock/Unlock. -/
def Reachable (n : Nat) (c : Sys n) : Prop :=
  Relation.ReflTransGen SysStep (initSys n) c

/-- One unit (unit `0` of a one-unit system) has taken the fast path. -/
def lockedSys : Sys 1 :=
  Sys.mk mutexLocked 0 (Function.update (initSys 1).tds 0 PC.critical)

/-- Two units `A = 0`, `B = 1`.  After `A` locks (fast path): state `1`. -/
def c6s1 : Sys 2 :=
  Sys.mk mutexLocked 0 (Function.update (initSys 2).tds 0 PC.critical)

/-- `B`'s fast CAS fails (state is `1`, not `0`). -/
def c6s2 : Sys 2 :=
  Sys.mk mutexLocked 0 (Function.update c6s1.tds 1 (PC.readOld false 0))

/-- `B` loads `old = 1`. -/
def c6s3 : Sys 2 :=
  Sys.mk mutexLocked 0 (Function.update c6s2.tds 1 (PC.afterRead mutexLocked false 0))

/-- The spin advisor declines; `B` prepares the CAS `1 → 5` (one waiter). -/
def c6s4 : Sys 2 :=
  Sys.mk mutexLocked 0 (Function.update c6s3.tds 1 (PC.casAttempt 1 5 false 0))

/-- `B`'s CAS succeeds with the lock held: state `5`, `B` parks. -/
def c6s5 : Sys 2 :=
  Sys.mk 5 0 (Function.update c6s4.tds 1 PC.blocked)

/-- `A` unlocks: atomic subtract gives state `4` (one waiter, free). -/
def c6s6 : Sys 2 :=
  Sys.mk 4 0 (Function.update c6s5.tds 0 (PC.unlockLoop 4))

/-- `A`'s wake CAS: state `4 → (4 - 4) ||| 2 = 2` — woken set, zero
waiters. -/
def c6bad : Sys 2 :=
  Sys.mk 2 0 (Function.update c6s6.tds 0 PC.semrelease)

/-! ### Arithmetic toolkit for the low bits of the state word -/

/-- Splitting an `|||` with a constant below `4` at bit 2. -/
theorem or_low (x c : Nat) (hc : c < 4) : x ||| c = 4 * (x / 4) + (x % 4 ||| c) := by
  have hm : x % 4 < 4 := Nat.mod_lt _ (by omega)
  have h4 : (4 : Nat) = 2 ^ 2 := rfl
  calc x ||| c = (4 * (x / 4) + x % 4) ||| c := by rw [Nat.div_add_mod]
    _ = ((4 * (x / 4)) ||| (x % 4)) ||| c := by
          rw [h4] at hm ⊢; rw [Nat.mul_add_lt_is_or hm]
    _ = (4 * (x / 4)) ||| ((x % 4) ||| c) := Nat.or_assoc _ _ _
    _ = 4 * (x / 4) + ((x % 4) ||| c) := by
          rw [h4] at hm hc ⊢
          rw [← Nat.mul_add_lt_is_or (Nat.or_lt_two_pow hm hc)]

/-- `x ||| 1` arithmetically: set bit 0. -/
theorem or_one_eq (x : Nat) : x ||| 1 = x + 1 - x % 2 := by
  have h := or_low x 1 (by omega)
  have h2 : x % 4 = 0 ∨ x % 4 = 1 ∨ x % 4 = 2 ∨ x % 4 = 3 := by omega
  rcases h2 with h2 | h2 | h2 | h2 <;> rw [h2] at h <;>
    [rw [show ((0 : Nat) ||| 1) = 1 from by decide] at h;
     rw [show ((1 : Nat) ||| 1) = 1 from by decide] at h;
     rw [show ((2 : Nat) ||| 1) = 3 from by decide] at h;
     rw [show ((3 : Nat) ||| 1) = 3 from by decide] at h] <;> omega

/-- `x ||| 2` arithmetically: set bit 1. -/
theorem or_two_eq (x : Nat) : x ||| 2 = x + 2 - 2 * (x / 2 % 2) := by
  have h := or_low x 2 (by omega)
  have h2 : x % 4 = 0 ∨ x % 4 = 1 ∨ x % 4 = 2 ∨ x % 4 = 3 := by omega
  rcases h2 with h2 | h2 | h2 | h2 <;> rw [h2] at h <;>
    [rw [show ((0 : Nat) ||| 2) = 2 from by decide] at h;
     rw [show ((1 : Nat) ||| 2) = 3 from by decide] at h;
     rw [show ((2 : Nat) ||| 2) = 2 from by decide] at h;
     rw [show ((3 : Nat) ||| 2) = 3 from by decide] at h] <;> omega

/-- `x &&& 3` is `x % 4`. -/
theorem and_three_eq (x : Nat) : x &&& 3 = x % 4 := by
  have := Nat.and_pow_two_sub_one_eq_mod x 2
  norm_num at this
  exact this

/-- `x &&& 2` arithmetically: test bit 1. -/
theorem and_two_eq (x : Nat) : x &&& 2 = 2 * (x / 2 % 2) := by
  have h : x &&& 2 = (x &&& 3) &&& 2 := by
    rw [Nat.and_assoc, show ((3 : Nat) &&& 2) = 2 from by decide]
  rw [h, and_three_eq]
  have h2 : x % 4 = 0 ∨ x % 4 = 1 ∨ x % 4 = 2 ∨ x % 4 = 3 := by omega
  rcases h2 with h2 | h2 | h2 | h2 <;> rw [h2] <;>
    [rw [show ((0 : Nat) &&& 2) = 0 from by decide];
     rw [show ((1 : Nat) &&& 2) = 0 from by decide];
     rw [show ((2 : Nat) &&& 2) = 2 from by decide];
     rw [show ((3 : Nat) &&& 2) = 2 from by decide]] <;> omega

/-- The word size as a literal. -/
theorem word_eq : word = 4294967296 := by decide

/-- Clearing the woken bit keeps bit 0. -/
theorem andNot32_two_and_one (x : Nat) : andNot32 x 2 &&& 1 = x &&& 1 := by
  have h : ((2 ^ 32 - 1 : Nat) - 2) &&& 1 = 1 := by decide
  unfold andNot32 word
  rw [Nat.and_assoc, h]

/-- Clearing the woken bit clears bit 1. -/
theorem andNot32_two_and_two (x : Nat) : andNot32 x 2 &&& 2 = 0 := by
  have h : ((2 ^ 32 - 1 : Nat) - 2) &&& 2 = 0 := by decide
  unfold andNot32 word
  rw [Nat.and_assoc, h, Nat.and_zero]

/-- And-not never grows its argument. -/
theorem andNot32_le (x y : Nat) : andNot32 x y ≤ x := Nat.and_le_left

/-- Wrapping addition stays below the word size. -/
theorem add32_lt (x y : Nat) : add32 x y < word :=
  Nat.mod_lt _ (by rw [word_eq]; omega)

/-- Wrapping subtraction stays below the word size. -/
theorem sub32_lt (x y : Nat) : sub32 x y < word :=
  Nat.mod_lt _ (by rw [word_eq]; omega)

/-- Adding one waiter (`+ 1 << mutexWaiterShift`) keeps bit 0. -/
theorem add32_waiter_and_one (old : Nat) :
    add32 old (1 <<< mutexWaiterShift) &&& 1 = old &&& 1 := by
  rw [Nat.and_one_is_mod, Nat.and_one_is_mod]
  unfold add32 mutexWaiterShift
  rw [word_eq, show ((1 : Nat) <<< 2) = 4 from by decide]
  omega

/-- Adding one waiter keeps bit 1. -/
theorem add32_waiter_and_two (old : Nat) :
    add32 old (1 <<< mutexWaiterShift) &&& 2 = old &&& 2 := by
  rw [and_two_eq, and_two_eq]
  unfold add32 mutexWaiterShift
  rw [word_eq, show ((1 : Nat) <<< 2) = 4 from by decide]
  omega

/-- Setting bit 0 makes bit 0 one. -/
theorem or_one_and_one (x : Nat) : (x ||| 1) &&& 1 = 1 := by
  rw [Nat.and_one_is_mod, or_one_eq]; omega

/-- Setting bit 0 keeps bit 1. -/
theorem or_one_and_two (x : Nat) : (x ||| 1) &&& 2 = x &&& 2 := by
  rw [and_two_eq, and_two_eq, or_one_eq]; omega

/-- Setting bit 1 keeps bit 0. -/
theorem or_two_and_one (x : Nat) : (x ||| 2) &&& 1 = x &&& 1 := by
  rw [Nat.and_one_is_mod, Nat.and_one_is_mod, or_two_eq]; omega

/-- Setting bit 1 makes bit 1 two. -/
theorem or_two_and_two (x : Nat) : (x ||| 2) &&& 2 = 2 := by
  rw [and_two_eq, or_two_eq]; omega

/-- Setting bit 0 stays below the word size. -/
theorem or_one_lt (x : Nat) (hx : x < word) : x ||| 1 < word :=
  Nat.or_lt_two_pow hx (by norm_num)

/-- Setting bit 1 stays below the word size. -/
theorem or_two_lt (x : Nat) (hx : x < word) : x ||| 2 < word :=
  Nat.or_lt_two_pow hx (by norm_num)

/-- Setting the woken bit does not change the signed waiter count. -/
theorem sar32_or_two (x : Nat) :
    sar32 (x ||| 2) mutexWaiterShift = sar32 x mutexWaiterShift := by
  have hdiv : (x ||| 2) >>> 2 = x >>> 2 := by
    rw [Nat.shiftRight_eq_div_pow, Nat.shiftRight_eq_div_pow, or_two_eq]
    norm_num
    omega
  unfold sar32 mutexWaiterShift
  by_cases hlt : x < 2 ^ 31
  · have h2 : x ||| 2 < 2 ^ 31 := Nat.or_lt_two_pow hlt (by norm_num)
    rw [if_pos hlt, if_pos h2, hdiv]
  · have h2 : ¬ (x ||| 2 < 2 ^ 31) := by
      rw [or_two_eq]; omega
    rw [if_neg hlt, if_neg h2, hdiv]

/-- A nonzero signed waiter count forces the word to be at least `4`. -/
theorem sar32_ge_four (x : Nat) (h : sar32 x mutexWaiterShift ≠ 0) :
    4 ≤ x := by
  by_cases hlt : x < 2 ^ 31
  · unfold sar32 mutexWaiterShift at h
    rw [if_pos hlt, Nat.shiftRight_eq_div_pow] at h
    norm_num at h
    omega
  · omega

/-- The fatal check of Unlock fires exactly when bit 0 was clear before the
atomic subtraction. -/
theorem unlockFast_panics_iff (s : Nat) :
    (unlockFast s).2 = true ↔ s &&& 1 = 0 := by
  unfold unlockFast add32 mutexLocked
  rw [decide_eq_true_eq, Nat.and_one_is_mod, Nat.and_one_is_mod]
  rw [word_eq]
  omega

/-- When bit 0 was set, Unlock's atomic subtraction is an honest decrement. -/
theorem unlockFast_fst_of_locked (s : Nat) (hs : s < word) (h : s &&& 1 = 1) :
    (unlockFast s).1 = s - 1 := by
  unfold unlockFast add32 mutexLocked
  rw [Nat.and_one_is_mod] at h
  rw [word_eq] at hs ⊢
  simp only
  omega

/-! ### Shapes of the loop-body results -/

/-- The candidate always carries the locked bit. -/
theorem lockCandidate_and_one (old : Nat) : lockCandidate old &&& 1 = 1 := by
  unfold lockCandidate mutexLocked
  split
  · rename_i h
    rw [add32_waiter_and_one, Nat.and_one_is_mod] at *
    omega
  · exact or_one_and_one old

/-- The candidate has the same woken bit as `old`. -/
theorem lockCandidate_and_two (old : Nat) : lockCandidate old &&& 2 = old &&& 2 := by
  unfold lockCandidate mutexLocked
  split
  · exact add32_waiter_and_two old
  · exact or_one_and_two old

/-- The candidate stays below the word size. -/
theorem lockCandidate_lt (old : Nat) (hold : old < word) : lockCandidate old < word := by
  unfold lockCandidate
  split
  · exact add32_lt _ _
  · exact or_one_lt _ hold

/-- Exhaustive characterisation of where `lockBody` can land, with the
facts each landing point guarantees. -/
theorem lockBody_spec (old : Nat) (a : Bool) (i : Nat) (cs : Bool) (hold : old < word) :
    (∀ o i2, lockBody old a i cs = PC.spinCAS o i2 →
        o = old ∧ i2 = i ∧ a = false ∧ old &&& mutexWoken = 0 ∧
        sar32 old mutexWaiterShift ≠ 0) ∧
    (∀ o nw a2 i2, lockBody old a i cs = PC.casAttempt o nw a2 i2 →
        o = old ∧ a2 = a ∧ i2 = i ∧ nw &&& 1 = 1 ∧ nw < word ∧
        (nw &&& 2 ≠ 0 → old &&& 2 ≠ 0)) ∧
    lockBody old a i cs ≠ PC.critical ∧
    (∀ o a2 i2, lockBody old a i cs ≠ PC.afterRead o a2 i2) := by
  unfold lockBody
  split
  · split
    · rename_i h1 h2
      refine ⟨?_, ?_, ?_, ?_⟩
      · intro o i2 heq
        cases heq
        exact ⟨rfl, rfl, h2.1, h2.2.1, h2.2.2⟩
      · intro o nw a2 i2 heq; cases heq
      · intro heq; cases heq
      · intro o a2 i2 heq; cases heq
    · refine ⟨?_, ?_, ?_, ?_⟩
      · intro o i2 heq; cases heq
      · intro o nw a2 i2 heq; cases heq
      · intro heq; cases heq
      · intro o a2 i2 heq; cases heq
  · split
    · split
      · refine ⟨?_, ?_, ?_, ?_⟩
        · intro o i2 heq; cases heq
        · intro o nw a2 i2 heq; cases heq
        · intro heq; cases heq
        · intro o a2 i2 heq; cases heq
      · rename_i ha hw
        refine ⟨?_, ?_, ?_, ?_⟩
        · intro o i2 heq; cases heq
        · intro o nw a2 i2 heq
          cases heq
          refine ⟨rfl, rfl, rfl, ?_, ?_, ?_⟩
          · rw [show mutexWoken = 2 from rfl, andNot32_two_and_one]
            exact lockCandidate_and_one old
          · exact Nat.lt_of_le_of_lt (andNot32_le _ _) (lockCandidate_lt old hold)
          · intro hnw
            rw [show mutexWoken = 2 from rfl, andNot32_two_and_two] at hnw
            omega
        · intro heq; cases heq
        · intro o a2 i2 heq; cases heq
    · refine ⟨?_, ?_, ?_, ?_⟩
      · intro o i2 heq; cases heq
      · intro o nw a2 i2 heq
        cases heq
        refine ⟨rfl, rfl, rfl, lockCandidate_and_one old, lockCandidate_lt old hold, ?_⟩
        intro hnw
        rw [lockCandidate_and_two] at hnw
        exact hnw
      · intro heq; cases heq
      · intro o a2 i2 heq; cases heq

/-! ### The inductive invariant of the interleaved system -/

/-- The inductive invariant: the state word is a 32-bit pattern; a unit in
its critical section certifies the locked bit, and is unique; the loaded
`old`, the pending CAS candidate `nw`, and a pending spin-CAS all remember
the facts that held when they were computed. -/
structure Inv {n : Nat} (c : Sys n) : Prop where
  stLt : c.st < word
  critLocked : ∀ t, c.tds t = PC.critical → c.st &&& 1 = 1
  critUniq : ∀ t u, c.tds t = PC.critical → c.tds u = PC.critical → t = u
  afterReadLt : ∀ t old a i, c.tds t = PC.afterRead old a i → old < word
  casInv : ∀ t old nw a i, c.tds t = PC.casAttempt old nw a i →
      nw &&& 1 = 1 ∧ nw < word ∧ (nw &&& 2 ≠ 0 → old &&& 2 ≠ 0)
  spinInv : ∀ t old i, c.tds t = PC.spinCAS old i →
      old &&& 2 = 0 ∧ sar32 old mutexWaiterShift ≠ 0

/-- Rebuilding the invariant after one unit's step. -/
theorem inv_rebuild {n : Nat} {c : Sys n} (hI : Inv c) (t : Fin n) (s' q' : Nat) (p' : PC)
    (hlt : s' < word)
    (hcritT : p' = PC.critical → s' &&& 1 = 1)
    (hcritO : ∀ u, u ≠ t → c.tds u = PC.critical → s' &&& 1 = 1)
    (huniq : p' ≠ PC.critical ∨ ∀ u, u ≠ t → c.tds u ≠ PC.critical)
    (hafter : ∀ o a i, p' = PC.afterRead o a i → o < word)
    (hcas : ∀ o nw a i, p' = PC.casAttempt o nw a i →
        nw &&& 1 = 1 ∧ nw < word ∧ (nw &&& 2 ≠ 0 → o &&& 2 ≠ 0))
    (hspin : ∀ o i, p' = PC.spinCAS o i → o &&& 2 = 0 ∧ sar32 o mutexWaiterShift ≠ 0) :
    Inv (Sys.mk s' q' (Function.update c.tds t p')) := by
  refine ⟨hlt, ?_, ?_, ?_, ?_, ?_⟩ <;> dsimp only
  · intro u hu
    by_cases h : u = t
    · subst h; rw [Function.update_same] at hu; exact hcritT hu
    · rw [Function.update_noteq h] at hu; exact hcritO u h hu
  · intro u v hu hv
    by_cases h1 : u = t <;> by_cases h2 : v = t
    · subst h1; subst h2; rfl
    · subst h1
      rw [Function.update_same] at hu
      rw [Function.update_noteq h2] at hv
      rcases huniq with h | h
      · exact absurd hu h
      · exact absurd hv (h v h2)
    · subst h2
      rw [Function.update_same] at hv
      rw [Function.update_noteq h1] at hu
      rcases huniq with h | h
      · exact absurd hv h
      · exact absurd hu (h u h1)
    · rw [Function.update_noteq h1] at hu
      rw [Function.update_noteq h2] at hv
      exact hI.critUniq u v hu hv
  · intro u o a i hu
    by_cases h : u = t
    · subst h; rw [Function.update_same] at hu; exact hafter o a i hu
    · rw [Function.update_noteq h] at hu; exact hI.afterReadLt u o a i hu
  · intro u o nw a i hu
    by_cases h : u = t
    · subst h; rw [Function.update_same] at hu; exact hcas o nw a i hu
    · rw [Function.update_noteq h] at hu; exact hI.casInv u o nw a i hu
  · intro u o i hu
    by_cases h : u = t
    · subst h; rw [Function.update_same] at hu; exact hspin o i hu
    · rw [Function.update_noteq h] at hu; exact hI.spinInv u o i hu

/-- Rebuilding after a step that keeps the state word and moves the unit to
a control point carrying no invariant obligations. -/
theorem inv_plain {n : Nat} {c : Sys n} (hI : Inv c) (t : Fin n) (q' : Nat) (p' : PC)
    (h1 : p' ≠ PC.critical) (h2 : ∀ o a i, p' ≠ PC.afterRead o a i)
    (h3 : ∀ o nw a i, p' ≠ PC.casAttempt o nw a i) (h4 : ∀ o i, p' ≠ PC.spinCAS o i) :
    Inv (Sys.mk c.st q' (Function.update c.tds t p')) :=
  inv_rebuild hI t c.st q' p' hI.stLt (fun h => absurd h h1)
    (fun u _ hcu => hI.critLocked u hcu) (Or.inl h1)
    (fun o a i h => absurd h (h2 o a i)) (fun o nw a i h => absurd h (h3 o nw a i))
    (fun o i h => absurd h (h4 o i))

/-- The all-zero system satisfies the invariant. -/
theorem inv_init (n : Nat) : Inv (initSys n) := by
  refine ⟨?_, ?_, ?_, ?_, ?_, ?_⟩
  · show (0 : Nat) < word
    rw [word_eq]; omega
  · intro u hu; simp [initSys] at hu
  · intro u v hu hv; simp [initSys] at hu
  · intro u o a i hu; simp [initSys] at hu
  · intro u o nw a i hu; simp [initSys] at hu
  · intro u o i hu; simp [initSys] at hu

/-- The invariant is preserved by every interleaved step. -/
theorem inv_step {n : Nat} {c c' : Sys n} (hI : Inv c) (h : SysStep c c') : Inv c' := by
  rcases h with ⟨t, s', q', p', hstep⟩
  obtain ⟨s0, q0, tds0⟩ := c
  dsimp only at hstep hI ⊢
  generalize htds : tds0 t = p0 at hstep
  cases hstep
  case fastSucc =>
      refine inv_rebuild hI t _ _ _ ?_ ?_ ?_ ?_ ?_ ?_ ?_
      · rw [word_eq]; norm_num [mutexLocked]
      · intro _; decide
      · intro u hu hcu
        have h2 : (0 : Nat) &&& 1 = 1 := hI.critLocked u hcu
        exact absurd h2 (by decide)
      · right
        intro u hu hcu
        have h2 : (0 : Nat) &&& 1 = 1 := hI.critLocked u hcu
        exact absurd h2 (by decide)
      · intro o a i h; cases h
      · intro o nw a i h; cases h
      · intro o i h; cases h
  case fastFail =>
      exact inv_plain hI t _ _ (fun h => PC.noConfusion h) (fun o a i h => PC.noConfusion h)
        (fun o nw a i h => PC.noConfusion h) (fun o i h => PC.noConfusion h)
  case readState =>
      rename_i a i
      refine inv_rebuild hI t _ _ _ hI.stLt ?_ ?_ ?_ ?_ ?_ ?_
      · intro h; cases h
      · intro u hu hcu; exact hI.critLocked u hcu
      · left; intro h; cases h
      · intro o a2 i2 h
        cases h
        exact hI.stLt
      · intro o nw a2 i2 h; cases h
      · intro o i2 h; cases h
  case body =>
      rename_i old a i cs
      have hold : old < word := hI.afterReadLt t old a i htds
      have hspec := lockBody_spec old a i cs hold
      refine inv_rebuild hI t _ _ _ hI.stLt ?_ ?_ ?_ ?_ ?_ ?_
      · intro h; exact absurd h hspec.2.2.1
      · intro u hu hcu; exact hI.critLocked u hcu
      · left; exact hspec.2.2.1
      · intro o a2 i2 h; exact absurd h (hspec.2.2.2 o a2 i2)
      · intro o nw a2 i2 h
        obtain ⟨ho, -, -, h1, h2, h3⟩ := hspec.2.1 o nw a2 i2 h
        subst ho
        exact ⟨h1, h2, h3⟩
      · intro o i2 h
        obtain ⟨ho, -, -, hw, hs⟩ := hspec.1 o i2 h
        subst ho
        exact ⟨hw, hs⟩
  case spinCASSucc =>
      rename_i i
      have hold : s0 < word := hI.stLt
      refine inv_rebuild hI t _ _ _ ?_ ?_ ?_ ?_ ?_ ?_ ?_
      · exact or_two_lt s0 hold
      · intro h; cases h
      · intro u hu hcu
        have h2 : s0 &&& 1 = 1 := hI.critLocked u hcu
        rw [show mutexWoken = 2 from rfl, or_two_and_one]
        exact h2
      · left; intro h; cases h
      · intro o a2 i2 h; cases h
      · intro o nw a2 i2 h; cases h
      · intro o i2 h; cases h
  case spinCASFail =>
      exact inv_plain hI t _ _ (fun h => PC.noConfusion h) (fun o a i h => PC.noConfusion h)
        (fun o nw a i h => PC.noConfusion h) (fun o i h => PC.noConfusion h)
  case casSuccFree =>
      rename_i i a h
      obtain ⟨h1, h2, h3⟩ := hI.casInv t s0 s' a i htds
      have hnone : ∀ u, tds0 u ≠ PC.critical := by
        intro u hcu
        have hx : s0 &&& 1 = 1 := hI.critLocked u hcu
        rw [show mutexLocked = 1 from rfl] at h
        omega
      refine inv_rebuild hI t _ _ _ h2 (fun _ => h1) ?_ ?_ ?_ ?_ ?_
      · intro u hu hcu; exact absurd hcu (hnone u)
      · right; intro u hu; exact hnone u
      · intro o a2 i2 h; cases h
      · intro o nw2 a2 i2 h; cases h
      · intro o i2 h; cases h
  case casSuccHeld =>
      rename_i i a h
      obtain ⟨h1, h2, h3⟩ := hI.casInv t s0 s' a i htds
      refine inv_rebuild hI t _ _ _ h2 ?_ ?_ ?_ ?_ ?_ ?_
      · intro h; cases h
      · intro u hu hcu; exact h1
      · left; intro h; cases h
      · intro o a2 i2 h; cases h
      · intro o nw2 a2 i2 h; cases h
      · intro o i2 h; cases h
  case casFail =>
      exact inv_plain hI t _ _ (fun h => PC.noConfusion h) (fun o a i h => PC.noConfusion h)
        (fun o nw a i h => PC.noConfusion h) (fun o i h => PC.noConfusion h)
  case semacquire =>
      exact inv_plain hI t _ _ (fun h => PC.noConfusion h) (fun o a i h => PC.noConfusion h)
        (fun o nw a i h => PC.noConfusion h) (fun o i h => PC.noConfusion h)
  case unlockAddOk =>
      refine inv_rebuild hI t _ _ _ (add32_lt _ _) ?_ ?_ ?_ ?_ ?_ ?_
      · intro h; cases h
      · intro u hu hcu
        exact absurd (hI.critUniq u t hcu htds) hu
      · left; intro h; cases h
      · intro o a2 i2 h; cases h
      · intro o nw2 a2 i2 h; cases h
      · intro o i2 h; cases h
  case unlockAddPanic =>
      refine inv_rebuild hI t _ _ _ (add32_lt _ _) ?_ ?_ ?_ ?_ ?_ ?_
      · intro h; cases h
      · intro u hu hcu
        exact absurd (hI.critUniq u t hcu htds) hu
      · left; intro h; cases h
      · intro o a2 i2 h; cases h
      · intro o nw2 a2 i2 h; cases h
      · intro o i2 h; cases h
  case unlockRet =>
      exact inv_plain hI t _ _ (fun h => PC.noConfusion h) (fun o a i h => PC.noConfusion h)
        (fun o nw a i h => PC.noConfusion h) (fun o i h => PC.noConfusion h)
  case unlockCASSucc =>
      rename_i h
      rw [unlockRetGuard, not_or, not_not] at h
      obtain ⟨hA, hB⟩ := h
      have h3 : s0 % 4 = 0 := by
        have hB2 : s0 &&& 3 = 0 := by
          rw [show mutexLocked ||| mutexWoken = 3 from rfl] at hB
          exact hB
        rw [and_three_eq] at hB2
        exact hB2
      refine inv_rebuild hI t _ _ _ ?_ ?_ ?_ ?_ ?_ ?_ ?_
      · exact or_two_lt _ (sub32_lt _ _)
      · intro h; cases h
      · intro u hu hcu
        have hx : s0 &&& 1 = 1 := hI.critLocked u hcu
        rw [Nat.and_one_is_mod] at hx
        omega
      · left; intro h; cases h
      · intro o a2 i2 h; cases h
      · intro o nw2 a2 i2 h; cases h
      · intro o i2 h; cases h
  case unlockCASFail =>
      exact inv_plain hI t _ _ (fun h => PC.noConfusion h) (fun o a i h => PC.noConfusion h)
        (fun o nw a i h => PC.noConfusion h) (fun o i h => PC.noConfusion h)
  case semreleaseStep =>
      exact inv_plain hI t _ _ (fun h => PC.noConfusion h) (fun o a i h => PC.noConfusion h)
        (fun o nw a i h => PC.noConfusion h) (fun o i h => PC.noConfusion h)
  case unlockReread =>
      exact inv_plain hI t _ _ (fun h => PC.noConfusion h) (fun o a i h => PC.noConfusion h)
        (fun o nw a i h => PC.noConfusion h) (fun o i h => PC.noConfusion h)
/-- Every reachable system state satisfies the invariant. -/
theorem inv_reachable {n : Nat} {c : Sys n} (h : Reachable n c) : Inv c := by
  induction h with
  | refl => exact inv_init n
  | tail hsteps hstep ih => exact inv_step ih hstep

/-! ### A concrete two-unit execution (the scenario of spec section 8) -/

/-- The seven-step interleaving reaching `c6s6`. -/
theorem reach_c6s6 : Reachable 2 c6s6 := by
  have h1 : SysStep (initSys 2) c6s1 :=
    SysStep.mk (initSys 2) 0 mutexLocked 0 PC.critical (TStep.fastSucc 0)
  have h2 : SysStep c6s1 c6s2 :=
    SysStep.mk c6s1 1 mutexLocked 0 (PC.readOld false 0)
      (TStep.fastFail mutexLocked 0 (by decide))
  have h3 : SysStep c6s2 c6s3 :=
    SysStep.mk c6s2 1 mutexLocked 0 (PC.afterRead mutexLocked false 0)
      (TStep.readState mutexLocked 0 false 0)
  have h4 : SysStep c6s3 c6s4 :=
    SysStep.mk c6s3 1 mutexLocked 0 (PC.casAttempt 1 5 false 0)
      (TStep.body mutexLocked 0 mutexLocked false 0 false)
  have h5 : SysStep c6s4 c6s5 :=
    SysStep.mk c6s4 1 5 0 PC.blocked (TStep.casSuccHeld 1 0 5 0 false (by decide))
  have h6 : SysStep c6s5 c6s6 :=
    SysStep.mk c6s5 0 4 0 (PC.unlockLoop 4) (TStep.unlockAddOk 5 0 (by decide))
  exact Relation.ReflTransGen.tail (Relation.ReflTransGen.tail
    (Relation.ReflTransGen.tail (Relation.ReflTransGen.tail
      (Relation.ReflTransGen.tail (Relation.ReflTransGen.single h1) h2) h3) h4) h5) h6

/-- `A` wins the wake CAS from state `4`: the step into `c6bad`. -/
theorem step_c6bad : SysStep c6s6 c6bad :=
  SysStep.mk c6s6 0 2 0 PC.semrelease (TStep.unlockCASSucc 4 0 (by decide))

/-! ### The claims -/

/-- C1: for all sequences of concurrent Lock/Unlock calls on one Mutex, at
most one execution unit holds the lock at any instant — in every state
reachable from the all-zero system by interleaved atomic steps, any two
units inside their critical section coincide. -/
theorem C1_mutual_exclusion {n : Nat} {c : Sys n} (h : Reachable n c)
    (t u : Fin n) (ht : c.tds t = PC.critical) (hu : c.tds u = PC.critical) :
    t = u :=
  (inv_reachable h).critUniq t u ht hu

theorem C1_mutual_exclusion_witness :
    Reachable 1 lockedSys ∧ lockedSys.tds 0 = PC.critical ∧ (0 : Fin 1) = 0 := by
  have hr : Reachable 1 lockedSys :=
    Relation.ReflTransGen.single
      (SysStep.mk (initSys 1) 0 mutexLocked 0 PC.critical (TStep.fastSucc 0))
  have hc : lockedSys.tds 0 = PC.critical := rfl
  exact ⟨hr, hc, C1_mutual_exclusion hr 0 0 hc hc⟩

/-- C2: for every mutex whose state is `0` at the fast-path CAS, the CAS
succeeds, the unit holds the lock immediately, the state equals the
locked-bit value, and no other step is possible there: the semaphore counter
is untouched, no spin control point is entered, and the signed waiter count
is unchanged. -/
theorem C2_lock_fast_path (q : Nat) :
    TStep 0 q PC.idle mutexLocked q PC.critical ∧
    (∀ s' q' p', TStep 0 q PC.idle s' q' p' →
        s' = mutexLocked ∧ q' = q ∧ p' = PC.critical) ∧
    sar32 mutexLocked mutexWaiterShift = sar32 0 mutexWaiterShift ∧
    lockFastPath 0 = some mutexLocked := by
  refine ⟨TStep.fastSucc q, ?_, by decide, rfl⟩
  intro s' q' p' h
  cases h
  case fastSucc => exact ⟨rfl, rfl, rfl⟩
  case fastFail => rename_i hne; exact absurd rfl hne

theorem C2_lock_fast_path_witness :
    mutexLocked = mutexLocked ∧ (0 : Nat) = 0 ∧ PC.critical = PC.critical :=
  (C2_lock_fast_path 0).2.1 mutexLocked 0 PC.critical (C2_lock_fast_path 0).1

/-- C3: Unlock's atomic subtraction of the locked bit fails fatally exactly
when the locked bit was not set at the moment of the subtraction; in
particular Unlock on the fresh all-zero Mutex fails fatally, and after
`Lock` (fast path from `0`, giving state `mutexLocked`) a first `Unlock`
succeeds returning the state to `0` while a second one fails fatally. -/
theorem C3_unlock_fatal_iff (s : Nat) :
    ((unlockFast s).2 = true ↔ s &&& mutexLocked = 0) ∧
    (unlockFast 0).2 = true ∧
    (lockFastPath 0 = some mutexLocked ∧
      unlockFast mutexLocked = (0, false) ∧
      (unlockFast ((unlockFast mutexLocked).1)).2 = true) := by
  refine ⟨unlockFast_panics_iff s, by decide, rfl, by decide, by decide⟩

/-- C10: when Unlock fails fatally, the state word has already been
decremented (wrapping) by the locked bit's weight and is not restored: the
post-panic state differs from the state on entry. -/
theorem C10_panic_leaves_decrement (s : Nat) (hs : s < word)
    (h : (unlockFast s).2 = true) :
    (unlockFast s).1 = (s + (word - 1)) % word ∧ (unlockFast s).1 ≠ s := by
  refine ⟨rfl, ?_⟩
  rw [unlockFast_panics_iff, Nat.and_one_is_mod] at h
  show add32 s (word - mutexLocked) ≠ s
  unfold add32
  rw [show mutexLocked = 1 from rfl]
  rw [word_eq] at hs ⊢
  omega

theorem C10_panic_leaves_decrement_witness :
    (0 : Nat) < word ∧ (unlockFast 0).2 = true ∧
    ((unlockFast 0).1 = ((0 : Nat) + (word - 1)) % word ∧ (unlockFast 0).1 ≠ 0) :=
  ⟨by decide, by decide, C10_panic_leaves_decrement 0 (by decide) (by decide)⟩

/-- C4: in Unlock's wake loop, for every observed `old`: if the waiter
count is zero or the woken or locked bit is set, the step returns without a
semaphore release; otherwise the CAS from `old` to
`(old - one waiter) ||| woken` is attempted — on success the unit moves to
the single release step (which adds exactly one credit and returns), on
failure it re-reads; so one Unlock call releases at most once. -/
theorem C4_unlock_wake_loop (s q old : Nat) :
    (∀ s' q' p', TStep s q (PC.unlockLoop old) s' q' p' →
        (unlockRetGuard old → s' = s ∧ q' = q ∧ p' = PC.idle) ∧
        (¬ unlockRetGuard old → s = old →
            s' = wakeNew old ∧ q' = q ∧ p' = PC.semrelease) ∧
        (¬ unlockRetGuard old → s ≠ old →
            s' = s ∧ q' = q ∧ p' = PC.unlockRead)) ∧
    (∀ s2 q2 s' q' p', TStep s2 q2 PC.semrelease s' q' p' →
        s' = s2 ∧ q' = q2 + 1 ∧ p' = PC.idle) := by
  constructor
  · intro s' q' p' h
    cases h
    case unlockRet =>
      rename_i hg
      exact ⟨fun _ => ⟨rfl, rfl, rfl⟩, fun hng _ => absurd hg hng,
        fun hng _ => absurd hg hng⟩
    case unlockCASSucc =>
      rename_i hg
      exact ⟨fun hy => absurd hy hg, fun _ _ => ⟨rfl, rfl, rfl⟩,
        fun _ hne => absurd rfl hne⟩
    case unlockCASFail =>
      rename_i hg hne
      exact ⟨fun hy => absurd hy hg, fun _ heq => absurd heq hne,
        fun _ _ => ⟨rfl, rfl, rfl⟩⟩
  · intro s2 q2 s' q' p' h
    cases h
    exact ⟨rfl, rfl, rfl⟩

theorem C4_unlock_wake_loop_witness :
    ¬ unlockRetGuard 4 ∧
    (wakeNew 4 = wakeNew 4 ∧ (0 : Nat) = 0 ∧ PC.semrelease = PC.semrelease) :=
  ⟨by decide,
   (((C4_unlock_wake_loop 4 0 4).1 (wakeNew 4) 0 PC.semrelease
      (TStep.unlockCASSucc 4 0 (by decide))).2.1 (by decide) rfl)⟩

/-- C5: when the slow-path CAS from `old` succeeds, the state becomes the
registered candidate `nw`; with `old`'s locked bit clear the unit enters its
critical section, otherwise it parks on the semaphore, and a wake consumes
one credit and restarts the loop at a fresh read with `awoke = true`,
`iter = 0` (re-racing, not being granted the lock); a candidate registered
with the lock held is `old` plus one waiter (possibly with the woken bit
consumed). -/
theorem C5_slow_cas_success (old q nw i : Nat) (a : Bool) :
    (∀ s' q' p', TStep old q (PC.casAttempt old nw a i) s' q' p' →
        s' = nw ∧ q' = q ∧
        (old &&& mutexLocked = 0 → p' = PC.critical) ∧
        (old &&& mutexLocked ≠ 0 → p' = PC.blocked)) ∧
    (∀ s2 q2 s' q' p', TStep s2 q2 PC.blocked s' q' p' →
        s' = s2 ∧ q2 = q' + 1 ∧ p' = PC.readOld true 0) ∧
    (∀ a2 i2 cs o nw2 a3 i3, lockBody old a2 i2 cs = PC.casAttempt o nw2 a3 i3 →
        old &&& mutexLocked ≠ 0 →
        nw2 = add32 old (1 <<< mutexWaiterShift) ∨
        nw2 = andNot32 (add32 old (1 <<< mutexWaiterShift)) mutexWoken) := by
  refine ⟨?_, ?_, ?_⟩
  · intro s' q' p' h
    cases h
    case casSuccFree =>
      rename_i hL
      exact ⟨rfl, rfl, fun _ => rfl, fun hx => absurd hL hx⟩
    case casSuccHeld =>
      rename_i hL
      exact ⟨rfl, rfl, fun hx => absurd hx hL, fun _ => rfl⟩
    case casFail =>
      rename_i hne
      exact absurd rfl hne
  · intro s2 q2 s' q' p' h
    cases h
    exact ⟨rfl, rfl, rfl⟩
  · intro a2 i2 cs o nw2 a3 i3 heq hlocked
    unfold lockBody at heq
    by_cases h1 : old &&& mutexLocked ≠ 0 ∧ cs = true
    · rw [if_pos h1] at heq
      by_cases h2 : a2 = false ∧ old &&& mutexWoken = 0 ∧ sar32 old mutexWaiterShift ≠ 0
      · rw [if_pos h2] at heq; cases heq
      · rw [if_neg h2] at heq; cases heq
    · rw [if_neg h1] at heq
      by_cases h2 : a2 = true
      · rw [if_pos h2] at heq
        by_cases h3 : lockCandidate old &&& mutexWoken = 0
        · rw [if_pos h3] at heq; cases heq
        · rw [if_neg h3] at heq
          cases heq
          right
          unfold lockCandidate
          rw [if_pos hlocked]
      · rw [if_neg h2] at heq
        cases heq
        left
        unfold lockCandidate
        rw [if_pos hlocked]

theorem C5_slow_cas_success_witness :
    (1 : Nat) = 1 ∧ (0 : Nat) = 0 ∧
    ((0 : Nat) &&& mutexLocked = 0 → PC.critical = PC.critical) ∧
    ((0 : Nat) &&& mutexLocked ≠ 0 → PC.critical = PC.blocked) :=
  (C5_slow_cas_success 0 0 1 0 false).1 1 0 PC.critical
    (TStep.casSuccFree 0 0 1 0 false (by decide))

/-- C7: in Lock's retry loop with `awoke = true`, whenever the candidate
`new` has been computed (the spin `continue` was not taken): if `new` lacks
the woken bit the operation panics with the inconsistent-state error, and
otherwise the woken bit is cleared from `new` before the CAS is attempted
(the registered candidate has a clear woken bit). -/
theorem C7_awoke_consumes_woken (old i : Nat) (cs : Bool)
    (hnospin : ¬ (old &&& mutexLocked ≠ 0 ∧ cs = true)) :
    (lockCandidate old &&& mutexWoken = 0 →
        lockBody old true i cs = PC.panicked PanicKind.inconsistentMutexState) ∧
    (lockCandidate old &&& mutexWoken ≠ 0 →
        lockBody old true i cs =
          PC.casAttempt old (andNot32 (lockCandidate old) mutexWoken) true i ∧
        andNot32 (lockCandidate old) mutexWoken &&& mutexWoken = 0) := by
  constructor
  · intro h0
    unfold lockBody
    rw [if_neg hnospin, if_pos rfl, if_pos h0]
  · intro h0
    unfold lockBody
    rw [if_neg hnospin, if_pos rfl, if_neg h0]
    exact ⟨rfl, andNot32_two_and_two _⟩

theorem C7_awoke_consumes_woken_witness :
    ¬ ((1 : Nat) &&& mutexLocked ≠ 0 ∧ false = true) ∧
    lockCandidate 1 &&& mutexWoken = 0 ∧
    lockBody 1 true 0 false = PC.panicked PanicKind.inconsistentMutexState :=
  ⟨by decide, by decide, (C7_awoke_consumes_woken 1 0 false (by decide)).1 (by decide)⟩

/-- C8: from the all-zero state a single uncontended unit performs Lock as
exactly the fast-path step (no spin point, no semaphore touch) and Unlock
as exactly the subtract step followed by the no-waiter return, ending back
in the all-zero state: each of the three configurations on the way has
exactly one possible step. -/
theorem C8_lock_unlock_identity :
    (∀ s' q' p', TStep 0 0 PC.idle s' q' p' →
        s' = mutexLocked ∧ q' = 0 ∧ p' = PC.critical) ∧
    (∀ s' q' p', TStep mutexLocked 0 PC.critical s' q' p' →
        s' = 0 ∧ q' = 0 ∧ p' = PC.unlockLoop 0) ∧
    (∀ s' q' p', TStep 0 0 (PC.unlockLoop 0) s' q' p' →
        s' = 0 ∧ q' = 0 ∧ p' = PC.idle) := by
  refine ⟨?_, ?_, ?_⟩
  · intro s' q' p' h
    cases h
    case fastSucc => exact ⟨rfl, rfl, rfl⟩
    case fastFail => rename_i hne; exact absurd rfl hne
  · intro s' q' p' h
    cases h
    case unlockAddOk => exact ⟨by decide, rfl, by decide⟩
    case unlockAddPanic => rename_i hp; exact absurd hp (by decide)
  · intro s' q' p' h
    cases h
    case unlockRet => exact ⟨rfl, rfl, rfl⟩
    case unlockCASSucc => rename_i hg; exact absurd (Or.inl (by decide)) hg
    case unlockCASFail => rename_i hg hne; exact absurd (Or.inl (by decide)) hg

theorem C8_lock_unlock_identity_witness :
    (mutexLocked = mutexLocked ∧ (0 : Nat) = 0 ∧ PC.critical = PC.critical) ∧
    ((unlockFast mutexLocked).1 = 0 ∧ (0 : Nat) = 0 ∧
      PC.unlockLoop (unlockFast mutexLocked).1 = PC.unlockLoop 0) ∧
    ((0 : Nat) = 0 ∧ (0 : Nat) = 0 ∧ PC.idle = PC.idle) :=
  ⟨C8_lock_unlock_identity.1 _ _ _ (TStep.fastSucc 0),
   C8_lock_unlock_identity.2.1 _ _ _ (TStep.unlockAddOk mutexLocked 0 (by decide)),
   C8_lock_unlock_identity.2.2 _ _ _ (TStep.unlockRet 0 0 0 (Or.inl (by decide)))⟩

/-- C9: with the lock held and the advisor approving a spin, the woken-bit
CAS point is entered exactly when `awoke` is false, `old`'s woken bit is
clear, and `old`'s waiter count is nonzero (otherwise the loop restarts with
`iter` incremented and no state access); the spin CAS itself leaves the
semaphore counter and the waiter count unchanged, never blocks, and on
success sets `awoke` and the woken bit, on failure changes nothing. -/
theorem C9_spin_path (old i : Nat) (a : Bool)
    (hlocked : old &&& mutexLocked ≠ 0) :
    ((lockBody old a i true = PC.spinCAS old i) ↔
        (a = false ∧ old &&& mutexWoken = 0 ∧ sar32 old mutexWaiterShift ≠ 0)) ∧
    (¬ (a = false ∧ old &&& mutexWoken = 0 ∧ sar32 old mutexWaiterShift ≠ 0) →
        lockBody old a i true = PC.readOld a (i + 1)) ∧
    (∀ s2 q2 s' q' p', TStep s2 q2 (PC.spinCAS old i) s' q' p' →
        q' = q2 ∧ sar32 s' mutexWaiterShift = sar32 s2 mutexWaiterShift ∧
        (s2 = old → s' = old ||| mutexWoken ∧ p' = PC.readOld true (i + 1)) ∧
        (s2 ≠ old → s' = s2 ∧ p' = PC.readOld false (i + 1))) := by
  refine ⟨⟨?_, ?_⟩, ?_, ?_⟩
  · intro heq
    unfold lockBody at heq
    rw [if_pos ⟨hlocked, rfl⟩] at heq
    by_cases h2 : a = false ∧ old &&& mutexWoken = 0 ∧ sar32 old mutexWaiterShift ≠ 0
    · exact h2
    · rw [if_neg h2] at heq; cases heq
  · intro h2
    unfold lockBody
    rw [if_pos ⟨hlocked, rfl⟩, if_pos h2]
  · intro h2
    unfold lockBody
    rw [if_pos ⟨hlocked, rfl⟩, if_neg h2]
  · intro s2 q2 s' q' p' h
    cases h
    case spinCASSucc =>
      exact ⟨rfl, sar32_or_two old, fun _ => ⟨rfl, rfl⟩, fun hne => absurd rfl hne⟩
    case spinCASFail =>
      rename_i hne
      exact ⟨rfl, rfl, fun heq => absurd heq hne, fun _ => ⟨rfl, rfl⟩⟩

theorem C9_spin_path_witness :
    (5 : Nat) &&& mutexLocked ≠ 0 ∧ lockBody 5 false 0 true = PC.spinCAS 5 0 :=
  ⟨by decide, (C9_spin_path 5 0 false (by decide)).1.2 ⟨rfl, by decide, by decide⟩⟩

/-- C6 fails on the code: the two-unit execution `reach_c6s6` followed by
Unlock's wake CAS reaches the state word `2` — woken bit set, waiter count
zero — so "the woken bit is set only if the waiter count is at least one"
does not hold of every reachable state. -/
theorem C6_counterexample :
    Reachable 2 c6bad ∧ c6bad.st &&& mutexWoken ≠ 0 ∧
    sar32 c6bad.st mutexWaiterShift = 0 :=
  ⟨Relation.ReflTransGen.tail reach_c6s6 step_c6bad, by decide, by decide⟩

/-- C6 amended: every step that turns the woken bit on starts from a state
whose waiter count is nonzero (the bit may outlive the count dropping to
zero, as `C6_counterexample` shows, but it is never set without a waiter
present at the instant of setting). -/
theorem C6_woken_set_needs_waiter {n : Nat} {c c' : Sys n}
    (hr : Reachable n c) (hs : SysStep c c')
    (h0 : c.st &&& mutexWoken = 0) (h1 : c'.st &&& mutexWoken ≠ 0) :
    sar32 c.st mutexWaiterShift ≠ 0 := by
  have hI := inv_reachable hr
  rcases hs with ⟨t, s', q', p', hstep⟩
  obtain ⟨s0, q0, tds0⟩ := c
  dsimp only at hstep hI h0 h1 ⊢
  rw [show mutexWoken = 2 from rfl] at h0 h1
  generalize htds : tds0 t = p0 at hstep
  cases hstep
  case fastSucc => exact absurd h1 (by decide)
  case fastFail => exact absurd h0 h1
  case readState => exact absurd h0 h1
  case body => exact absurd h0 h1
  case spinCASSucc =>
    rename_i i
    exact (hI.spinInv t s0 i htds).2
  case spinCASFail => exact absurd h0 h1
  case casSuccFree =>
    rename_i i a h
    exact absurd h0 ((hI.casInv t s0 s' a i htds).2.2 h1)
  case casSuccHeld =>
    rename_i i a h
    exact absurd h0 ((hI.casInv t s0 s' a i htds).2.2 h1)
  case casFail => exact absurd h0 h1
  case semacquire => exact absurd h0 h1
  case unlockAddOk =>
    exfalso
    have hx : s0 &&& 1 = 1 := hI.critLocked t htds
    rw [unlockFast_fst_of_locked s0 hI.stLt hx] at h1
    rw [and_two_eq] at h0 h1
    rw [Nat.and_one_is_mod] at hx
    omega
  case unlockAddPanic =>
    exfalso
    have hx : s0 &&& 1 = 1 := hI.critLocked t htds
    rw [unlockFast_fst_of_locked s0 hI.stLt hx] at h1
    rw [and_two_eq] at h0 h1
    rw [Nat.and_one_is_mod] at hx
    omega
  case unlockRet => exact absurd h0 h1
  case unlockCASSucc =>
    rename_i h
    rw [unlockRetGuard, not_or] at h
    exact h.1
  case unlockCASFail => exact absurd h0 h1
  case semreleaseStep => exact absurd h0 h1
  case unlockReread => exact absurd h0 h1

theorem C6_woken_set_needs_waiter_witness :
    c6s6.st &&& mutexWoken = 0 ∧ c6bad.st &&& mutexWoken ≠ 0 ∧
    sar32 c6s6.st mutexWaiterShift ≠ 0 :=
  ⟨by decide, by decide,
   C6_woken_set_needs_waiter reach_c6s6 step_c6bad (by decide) (by decide)⟩

end GoMutex
